import Mathlib

/-!
# Verification of observatorium/thanos-rule-syncer

A shallow embedding of the core of `thanos-rule-syncer`:

* the result-collection and merge loop of `RulesObjtoreFetcher.GetTenantsRules`
  (`fetcher.go`, lines 96–136),
* the tenant-snapshot handling of `GetTenantsRules` (`fetcher.go`, lines 70–93)
  and `SetTenants` (lines 151–157),
* the retrying HTTP transport `RetryableTransport.RoundTrip` (`transport.go`),
* the tenant-file reloader `newTenantsFileReloader` (`tenant.go`, lines 23–56).

Durations are modelled as natural numbers of nanoseconds.  External effects
(the YAML rule parser `rulefmt.Parse`, body reads, the wall clock) enter the
model as explicit inputs, so every definition is executable.
-/

/-! ## Rule documents and per-tenant fetch results (`fetcher.go`) -/

/-- A Prometheus rule group: a name plus an opaque rule payload.  The code
never inspects the payload, so it is modelled as an opaque tag. -/
structure RuleGroup where
  name : String
  payload : Nat
deriving DecidableEq

deriving instance DecidableEq for Except

/-- The observable outcome of one tenant's fetch, as consumed by the collector
loop of `GetTenantsRules` (`fetcher.go` 99–127): the request error
(`result.err`), the HTTP status (`result.res.StatusCode`), and the combined
outcome of reading the body and `rulefmt.Parse` on it (external library
effects, supplied as an input of the model). -/
structure FetchOutcome where
  reqErr : Option String
  status : Nat
  parsed : Except String (List RuleGroup)
deriving DecidableEq

/-- `fetcher.go` 122–124: prepend the tenant name to every group name. -/
def prefixGroups (tenant : String) (gs : List RuleGroup) : List RuleGroup :=
  gs.map fun g => { g with name := tenant ++ "." ++ g.name }

/-- The collector loop of `GetTenantsRules` (`fetcher.go` 98–127) over the
sequence of per-tenant results in completion order: return on the first
request error, non-2xx status or parse error; otherwise append the
tenant-prefixed groups of each result to the accumulator. -/
def processResults : List (String × FetchOutcome) → Except String (List RuleGroup)
  | [] => .ok []
  | (tenant, o) :: rest =>
    match o.reqErr with
    | some e => .error ("failed to do http request: " ++ e)
    | none =>
      if o.status / 100 ≠ 2 then
        .error ("got unexpected status from Observatorium API: " ++ toString o.status)
      else
        match o.parsed with
        | .error e => .error e
        | .ok gs => (processResults rest).map fun acc => prefixGroups tenant gs ++ acc

/-- A per-tenant result that the collector accepts: no request error, a 2xx
status, and a body that parses. -/
def resultOk (r : String × FetchOutcome) : Bool :=
  r.2.reqErr.isNone && r.2.status / 100 == 2 &&
    (match r.2.parsed with | .ok _ => true | .error _ => false)

/-- The groups a result parsed to (empty if parsing failed). -/
def groupsOf (r : String × FetchOutcome) : List RuleGroup :=
  match r.2.parsed with
  | .ok gs => gs
  | .error _ => []

/-- What one tenant contributes to the merged document. -/
def tenantContribution (r : String × FetchOutcome) : List RuleGroup :=
  prefixGroups r.1 (groupsOf r)

/-- The complete merged document over a result sequence, in completion order. -/
def mergeAll (rs : List (String × FetchOutcome)) : List RuleGroup :=
  rs.foldr (fun r acc => tenantContribution r ++ acc) []

theorem mergeAll_cons (r : String × FetchOutcome) (rs : List (String × FetchOutcome)) :
    mergeAll (r :: rs) = tenantContribution r ++ mergeAll rs := rfl

/-- When every result is accepted, the collector succeeds with exactly the
complete merge. -/
theorem processResults_ok_of_all_ok (rs : List (String × FetchOutcome))
    (h : ∀ r ∈ rs, resultOk r = true) :
    processResults rs = .ok (mergeAll rs) := by
  induction rs with
  | nil => rfl
  | cons r rest ih =>
    obtain ⟨tenant, o⟩ := r
    have hr := h _ (List.mem_cons_self _ _)
    have hrest : ∀ r ∈ rest, resultOk r = true := fun r hm => h r (List.mem_cons_of_mem _ hm)
    simp only [resultOk, Bool.and_eq_true, beq_iff_eq, Option.isNone_iff_eq_none] at hr
    obtain ⟨⟨he, hs⟩, hp⟩ := hr
    simp only [processResults, he, hs]
    cases hps : o.parsed with
    | error e => simp [hps] at hp
    | ok gs =>
      simp only [ih hrest, Except.map, mergeAll_cons, tenantContribution, groupsOf]
      simp [hps]

/-- If some result is rejected, the collector returns an error. -/
theorem processResults_error_of_bad (rs : List (String × FetchOutcome))
    (h : ∃ r ∈ rs, resultOk r = false) :
    ∃ e, processResults rs = .error e := by
  induction rs with
  | nil => simp at h
  | cons r rest ih =>
    obtain ⟨tenant, o⟩ := r
    obtain ⟨r', hmem, hbad⟩ := h
    cases he : o.reqErr with
    | some e =>
      exact ⟨"failed to do http request: " ++ e, by simp only [processResults, he]⟩
    | none =>
      simp only [processResults, he]
      by_cases hs : o.status / 100 ≠ 2
      · exact ⟨_, if_pos hs⟩
      · rw [if_neg hs]
        push_neg at hs
        cases hps : o.parsed with
        | error e => exact ⟨_, rfl⟩
        | ok gs =>
          rcases List.mem_cons.mp hmem with heq | hmem'
          · exfalso
            subst heq
            simp [resultOk, he, hps, hs] at hbad
          · obtain ⟨e, herr⟩ := ih ⟨r', hmem', hbad⟩
            exact ⟨e, by simp [herr, Except.map]⟩

/-- C1: `GetTenantsRules` is atomic from the caller's perspective: it returns
either the complete merged document covering every consumed tenant result (and
then every tenant's fetch succeeded), or an error and no document; any surfaced
failure — request error, non-2xx status, or parse error — makes the whole
cycle return that error, never a partial merge. -/
theorem getTenantsRules_atomic (rs : List (String × FetchOutcome)) :
    (processResults rs = .ok (mergeAll rs) ∧ ∀ r ∈ rs, resultOk r = true) ∨
    ((∃ e, processResults rs = .error e) ∧ ∃ r ∈ rs, resultOk r = false) := by
  by_cases h : ∀ r ∈ rs, resultOk r = true
  · exact Or.inl ⟨processResults_ok_of_all_ok rs h, h⟩
  · right
    push_neg at h
    obtain ⟨r, hmem, hbad⟩ := h
    have hbad' : resultOk r = false := by
      cases hval : resultOk r with
      | false => rfl
      | true => exact absurd hval hbad
    exact ⟨processResults_error_of_bad rs ⟨r, hmem, hbad'⟩, r, hmem, hbad'⟩

/-- The merged document has one group per input group: its length is the sum
of the per-tenant group counts. -/
theorem mergeAll_length (rs : List (String × FetchOutcome)) :
    (mergeAll rs).length = (rs.map fun r => (groupsOf r).length).sum := by
  induction rs with
  | nil => rfl
  | cons r rest ih =>
    simp [mergeAll_cons, tenantContribution, prefixGroups, ih]

/-- Each tenant's contribution appears contiguously and in order inside the
merged document. -/
theorem mergeAll_contrib (rs : List (String × FetchOutcome)) :
    ∀ r ∈ rs, ∃ pre post, mergeAll rs = pre ++ prefixGroups r.1 (groupsOf r) ++ post := by
  induction rs with
  | nil => intro r hr; simp at hr
  | cons r' rest ih =>
    intro r hr
    rcases List.mem_cons.mp hr with heq | hmem
    · subst heq
      exact ⟨[], mergeAll rest, by simp [mergeAll_cons, tenantContribution]⟩
    · obtain ⟨pre, post, hsplit⟩ := ih r hmem
      exact ⟨tenantContribution r' ++ pre, post, by simp [mergeAll_cons, hsplit]⟩

/-- Every group of the merged document is some input group with its name
rewritten to `<tenant-id>.<original-name>`. -/
theorem mergeAll_mem (rs : List (String × FetchOutcome)) :
    ∀ g ∈ mergeAll rs, ∃ r ∈ rs, ∃ g0 ∈ groupsOf r, g.name = r.1 ++ "." ++ g0.name := by
  induction rs with
  | nil => intro g hg; simp [mergeAll] at hg
  | cons r rest ih =>
    intro g hg
    rw [mergeAll_cons] at hg
    rcases List.mem_append.mp hg with hin | hin
    · obtain ⟨g0, hg0, hmap⟩ := List.mem_map.mp hin
      exact ⟨r, List.mem_cons_self _ _, g0, hg0, by rw [← hmap]⟩
    · obtain ⟨r', hr', g0, hg0, hname⟩ := ih g hin
      exact ⟨r', List.mem_cons_of_mem _ hr', g0, hg0, hname⟩

/-- C3: when every tenant's fetch succeeds, `GetTenantsRules` returns the
merged document in which every input group appears with its name rewritten to
`<tenant-id>.<original-name>`, the total number of groups is the sum of the
per-tenant group counts, and each tenant's contribution keeps that tenant's
group order (it appears as a contiguous, order-preserving block). -/
theorem getTenantsRules_merge (rs : List (String × FetchOutcome))
    (h : ∀ r ∈ rs, resultOk r = true) :
    processResults rs = .ok (mergeAll rs) ∧
    (mergeAll rs).length = (rs.map fun r => (groupsOf r).length).sum ∧
    (∀ r ∈ rs, ∃ pre post, mergeAll rs = pre ++ prefixGroups r.1 (groupsOf r) ++ post) ∧
    (∀ g ∈ mergeAll rs, ∃ r ∈ rs, ∃ g0 ∈ groupsOf r, g.name = r.1 ++ "." ++ g0.name) :=
  ⟨processResults_ok_of_all_ok rs h, mergeAll_length rs, mergeAll_contrib rs, mergeAll_mem rs⟩

/-- The spec's example: tenants `tenant1` and `tenant2`, both returning a
document with 2 groups. -/
def rsExample : List (String × FetchOutcome) :=
  [("tenant1", ⟨none, 200, .ok [⟨"test", 1⟩, ⟨"test2", 2⟩]⟩),
   ("tenant2", ⟨none, 200, .ok [⟨"test", 1⟩, ⟨"test2", 2⟩]⟩)]

theorem getTenantsRules_merge_witness :
    (∀ r ∈ rsExample, resultOk r = true) ∧
    (processResults rsExample = .ok (mergeAll rsExample) ∧
     (mergeAll rsExample).length = (rsExample.map fun r => (groupsOf r).length).sum ∧
     (∀ r ∈ rsExample, ∃ pre post,
        mergeAll rsExample = pre ++ prefixGroups r.1 (groupsOf r) ++ post) ∧
     (∀ g ∈ mergeAll rsExample, ∃ r ∈ rsExample, ∃ g0 ∈ groupsOf r,
        g.name = r.1 ++ "." ++ g0.name)) :=
  ⟨by decide, getTenantsRules_merge rsExample (by decide)⟩

/-- The spec example indeed yields exactly 4 groups, all tenant-prefixed. -/
theorem rsExample_concrete :
    processResults rsExample =
      .ok [⟨"tenant1.test", 1⟩, ⟨"tenant1.test2", 2⟩,
           ⟨"tenant2.test", 1⟩, ⟨"tenant2.test2", 2⟩] := by
  decide

/-! ## Tenant snapshot handling (`fetcher.go` 70–93, 151–157) -/

/-- The mutable state of a `RulesObjtoreFetcher`: its `tenants` field, guarded
by `tenantsMtx`. -/
structure RulesObjtoreFetcher where
  tenants : List String
deriving DecidableEq

/-- `SetTenants` (`fetcher.go` 153–157): replaces the tenant list under the
mutex. -/
def SetTenants (f : RulesObjtoreFetcher) (ts : List String) : RulesObjtoreFetcher :=
  let _ := f
  { tenants := ts }

/-- `fetcher.go` 71–74: the copy of `f.tenants` taken while `tenantsMtx` is
held — the snapshot the cycle is supposed to use. -/
def snapshotCopy (f : RulesObjtoreFetcher) : List String :=
  f.tenants

/-- `fetcher.go` 76: the producer loop ranges over `f.tenants`, re-reading the
field instead of iterating the local copy `tenants` made on lines 71–74.
Under a concurrent `SetTenants`, the field may change between the copy (taken
from state `fAtCopy`) and the evaluation of the range expression (state
`fAtRange`), so the set of tenants for which fetch tasks are issued is the one
held in `fAtRange` — not the snapshot. -/
def issuedTenants (fAtCopy fAtRange : RulesObjtoreFetcher) : List String :=
  let _snapshot := snapshotCopy fAtCopy
  fAtRange.tenants

/-- C2 (code bug): a `SetTenants` call landing between the snapshot copy
(lines 71–74) and the range expression (line 76) changes which tenants the
cycle fetches: with snapshot `["tenant1"]` and a concurrent
`SetTenants ["tenant2"]`, the cycle issues fetch tasks for `["tenant2"]`,
which differs from the snapshot — the copied snapshot is dead code. -/
theorem getTenantsRules_snapshot_ignored :
    issuedTenants ⟨["tenant1"]⟩ (SetTenants ⟨["tenant1"]⟩ ["tenant2"]) = ["tenant2"] ∧
    snapshotCopy ⟨["tenant1"]⟩ = ["tenant1"] ∧
    issuedTenants ⟨["tenant1"]⟩ (SetTenants ⟨["tenant1"]⟩ ["tenant2"]) ≠
      snapshotCopy ⟨["tenant1"]⟩ := by
  decide

/-! ## Retrying transport (`transport.go`)

`RoundTrip` wraps an underlying round trip in `backoff.Retry` from
`github.com/cenkalti/backoff/v4`.  The library itself is a third-party
dependency whose sources are not part of this repository, so its retry loop is
modelled from the spec (see `retryLoop` below).  The classification of each
attempt's outcome — the `operation` closure, `transport.go` 50–81 — is
translated directly from the source. -/

/-- A transport-level error returned by the underlying `RoundTrip`
(`transport.go` 52–57): the only distinction the code makes is whether it is a
`net.Error` whose `Timeout()` is true. -/
inductive TransportError where
  | timeout
  | other (msg : String)
deriving DecidableEq

/-- An HTTP response as seen by the retry logic: its status code, the value of
the `Retry-After` header after `time.ParseDuration` (`none` = header absent or
empty, `some none` = present but unparsable, `some (some d)` = parses to `d`
nanoseconds; Go's duration parsing is external and abstracted as an input),
and whether its body has been closed. -/
structure HttpResponse where
  statusCode : Nat
  retryAfter : Option (Option Nat)
  bodyClosed : Bool
deriving DecidableEq

/-- The result of one attempt of the underlying transport. -/
inductive AttemptResult where
  | err (e : TransportError)
  | resp (r : HttpResponse)
deriving DecidableEq

/-- The classification of one attempt by the `operation` closure
(`transport.go` 50–81), as consumed by `backoff.Retry`: terminal success,
a permanent failure (`backoff.Permanent`), or a retryable failure, which in
the rate-limited case additionally sleeps the suggested delay inside the
operation (`extraSleep`). -/
inductive OpOutcome where
  | success
  | retryable (extraSleep : Nat)
  | permanent
deriving DecidableEq

/-- `transport.go` 50–81: classify one attempt.  `elapsed` is
`time.Since(startTime)` — the time since `RoundTrip` began (requests are
modelled as instantaneous, so it equals the total time slept so far). -/
def classifyAttempt (maxElapsedTime elapsed : Nat) : AttemptResult → OpOutcome
  | .err .timeout => .retryable 0
  | .err (.other _) => .permanent
  | .resp r =>
    if r.statusCode ≥ 500 then .retryable 0
    else if r.statusCode = 429 then
      match r.retryAfter with
      | some (some delay) =>
        if delay > maxElapsedTime ∨ elapsed + delay > maxElapsedTime then .permanent
        else .retryable delay
      | _ => .retryable 0
    else if r.statusCode ≥ 400 then .permanent
    else .success

/-- `transport.go` 59–78: the operation closes the response body on every
non-2xx-handled branch (status ≥ 400 or ≥ 500); a successful (< 400) response
keeps its body open for the caller. -/
def afterOperation : AttemptResult → AttemptResult
  | .err e => .err e
  | .resp r => .resp { r with bodyClosed := r.bodyClosed || r.statusCode ≥ 400 }

/-- The retry policy held in `backoff.ExponentialBackOff` (`transport.go`
19–24, 34–37). -/
structure BackoffPolicy where
  initialInterval : Nat
  maxInterval : Nat
  maxElapsedTime : Nat
deriving DecidableEq

/-- The completed run of one `backoff.Retry` invocation: how many requests
were issued, the total time slept, the last attempt's outcome (the values
left in `RoundTrip`'s `resp`/`err` variables), and the `currentInterval`
left behind in the `ExponentialBackOff`. -/
structure RetryRun where
  requests : Nat
  slept : Nat
  lastAttempt : AttemptResult
  finalInterval : Nat
deriving DecidableEq

/-- Modelled from the spec: the retry loop of `backoff.Retry` over
`ExponentialBackOff` (`github.com/cenkalti/backoff/v4`, a third-party
dependency not present in this repository's sources).  Per the spec's backoff
algorithm: exponential backoff starting at `InitialInterval`, each step capped
at `MaxInterval`, the whole loop capped at `MaxElapsedTime` measured from the
first attempt; once the elapsed time would exceed `MaxElapsedTime` the loop
stops and surfaces the last observed failure; a permanent classification stops
immediately.  Randomized jitter is abstracted away (deterministic intervals,
growth factor 3/2); `fuel` bounds the recursion and is chosen large enough in
every theorem.  Arguments: attempt index `n`, `elapsed` time slept so far,
`cur` the current interval. -/
def retryLoop (pol : BackoffPolicy) (attempts : Nat → AttemptResult) :
    Nat → Nat → Nat → Nat → Option RetryRun
  | 0, _, _, _ => none
  | fuel + 1, n, elapsed, cur =>
    let a := attempts n
    match classifyAttempt pol.maxElapsedTime elapsed a with
    | .success => some ⟨n + 1, elapsed, a, cur⟩
    | .permanent => some ⟨n + 1, elapsed, a, cur⟩
    | .retryable extraSleep =>
      let e1 := elapsed + extraSleep
      let next := min cur pol.maxInterval
      if pol.maxElapsedTime < e1 + next then some ⟨n + 1, e1, a, cur⟩
      else retryLoop pol attempts fuel (n + 1) (e1 + next) (cur * 3 / 2)

/-- What `RoundTrip` returns to its caller (`transport.go` 85): the `resp` and
`err` left by the **last** call of the underlying transport — the error value
returned by `backoff.Retry` itself is discarded. -/
structure RoundTripResult where
  resp : Option HttpResponse
  err : Option TransportError
  requests : Nat
  slept : Nat
deriving DecidableEq

/-- Project a finished retry run onto `RoundTrip`'s return value. -/
def mkRoundTripResult (run : RetryRun) : RoundTripResult :=
  match afterOperation run.lastAttempt with
  | .err e => ⟨none, some e, run.requests, run.slept⟩
  | .resp r => ⟨some r, none, run.requests, run.slept⟩

/-- `RoundTrip` (`transport.go` 45–86) for one call, given the sequence of
outcomes the underlying transport produces. -/
def roundTrip (pol : BackoffPolicy) (attempts : Nat → AttemptResult) (fuel : Nat) :
    Option RoundTripResult :=
  (retryLoop pol attempts fuel 0 0 pol.initialInterval).map mkRoundTripResult

/-- A server-error attempt: a response with status ≥ 500 (`transport.go` 60). -/
def isServerError : AttemptResult → Bool
  | .resp r => 500 ≤ r.statusCode
  | .err _ => false

theorem classify_clientError (maxElapsedTime elapsed : Nat) (r : HttpResponse)
    (h400 : 400 ≤ r.statusCode) (h500 : r.statusCode < 500) (h429 : r.statusCode ≠ 429) :
    classifyAttempt maxElapsedTime elapsed (.resp r) = .permanent := by
  simp only [classifyAttempt]
  rw [if_neg (by omega), if_neg h429, if_pos h400]

/-- C6: a response with a client-error status (400–499, excluding 429) is a
permanent failure: `RoundTrip` issues exactly one request and returns that
response immediately — no sleep, no retry — with its body closed and a nil
error. -/
theorem roundTrip_clientError (pol : BackoffPolicy) (attempts : Nat → AttemptResult)
    (r : HttpResponse) (fuel : Nat)
    (hfuel : 0 < fuel)
    (ha : attempts 0 = .resp r)
    (h400 : 400 ≤ r.statusCode) (h500 : r.statusCode < 500) (h429 : r.statusCode ≠ 429) :
    roundTrip pol attempts fuel =
      some ⟨some { r with bodyClosed := true }, none, 1, 0⟩ := by
  cases fuel with
  | zero => omega
  | succ f =>
    have hclass : classifyAttempt pol.maxElapsedTime 0 (.resp r) = .permanent :=
      classify_clientError _ _ r h400 h500 h429
    have hb : (r.bodyClosed || decide (400 ≤ r.statusCode)) = true := by
      simp [h400]
    simp only [roundTrip, retryLoop, ha, hclass, Option.map, mkRoundTripResult, afterOperation]
    simp [hb]

theorem roundTrip_clientError_witness :
    (0 : Nat) < 5 ∧
    roundTrip ⟨50, 100, 200⟩ (fun _ => .resp ⟨404, none, false⟩) 5 =
      some ⟨some ⟨404, none, true⟩, none, 1, 0⟩ :=
  ⟨by decide,
   roundTrip_clientError ⟨50, 100, 200⟩ (fun _ => .resp ⟨404, none, false⟩)
     ⟨404, none, false⟩ 5 (by decide) rfl (by decide) (by decide) (by decide)⟩

theorem classify_retryAfter_budget (maxElapsedTime elapsed : Nat) (r : HttpResponse)
    (delay : Nat)
    (hst : r.statusCode = 429)
    (hra : r.retryAfter = some (some delay))
    (hbig : delay > maxElapsedTime ∨ elapsed + delay > maxElapsedTime) :
    classifyAttempt maxElapsedTime elapsed (.resp r) = .permanent := by
  simp only [classifyAttempt]
  rw [if_neg (by omega), if_pos hst, hra]
  simp only [if_pos hbig]

/-- C4: a 429 response whose parseable `Retry-After` delay alone exceeds
`MaxElapsedTime`, or whose delay plus the elapsed time since the first attempt
exceeds `MaxElapsedTime`, is classified as a permanent failure; when this
happens on the first attempt, `RoundTrip` does not sleep and does not retry —
exactly one request is issued in total. -/
theorem roundTrip_retryAfter_budget (pol : BackoffPolicy) (attempts : Nat → AttemptResult)
    (r : HttpResponse) (delay : Nat) (fuel : Nat)
    (hfuel : 0 < fuel)
    (ha : attempts 0 = .resp r)
    (hst : r.statusCode = 429)
    (hra : r.retryAfter = some (some delay))
    (hbig : delay > pol.maxElapsedTime) :
    (∀ elapsed, delay > pol.maxElapsedTime ∨ elapsed + delay > pol.maxElapsedTime →
       classifyAttempt pol.maxElapsedTime elapsed (.resp r) = .permanent) ∧
    roundTrip pol attempts fuel =
      some ⟨some { r with bodyClosed := true }, none, 1, 0⟩ := by
  refine ⟨fun elapsed hb => classify_retryAfter_budget _ _ r delay hst hra hb, ?_⟩
  cases fuel with
  | zero => omega
  | succ f =>
    have hclass : classifyAttempt pol.maxElapsedTime 0 (.resp r) = .permanent :=
      classify_retryAfter_budget _ _ r delay hst hra (Or.inl hbig)
    have hb : (r.bodyClosed || decide (400 ≤ r.statusCode)) = true := by
      simp [hst]
    simp only [roundTrip, retryLoop, ha, hclass, Option.map, mkRoundTripResult, afterOperation]
    simp [hb]

theorem roundTrip_retryAfter_budget_witness :
    (0 : Nat) < 5 ∧ (3600000000000 : Nat) > 200000000 ∧
    roundTrip ⟨50000000, 100000000, 200000000⟩
        (fun _ => .resp ⟨429, some (some 3600000000000), false⟩) 5 =
      some ⟨some ⟨429, some (some 3600000000000), true⟩, none, 1, 0⟩ :=
  ⟨by decide, by decide,
   (roundTrip_retryAfter_budget ⟨50000000, 100000000, 200000000⟩
     (fun _ => .resp ⟨429, some (some 3600000000000), false⟩)
     ⟨429, some (some 3600000000000), false⟩ 3600000000000 5
     (by decide) rfl rfl rfl (by decide)).2⟩

/-- Every finished retry run returns the outcome of its last attempt, and a
run started before attempt `n` has issued at least `n + 1` requests. -/
theorem retryLoop_requests (pol : BackoffPolicy) (attempts : Nat → AttemptResult) :
    ∀ fuel n elapsed cur run, retryLoop pol attempts fuel n elapsed cur = some run →
      run.lastAttempt = attempts (run.requests - 1) ∧ n + 1 ≤ run.requests := by
  intro fuel
  induction fuel with
  | zero => intro n elapsed cur run h; simp [retryLoop] at h
  | succ f ih =>
    intro n elapsed cur run h
    simp only [retryLoop] at h
    split at h
    · cases h; exact ⟨by simp, le_refl _⟩
    · cases h; exact ⟨by simp, le_refl _⟩
    · split at h
      · cases h; exact ⟨by simp, le_refl _⟩
      · obtain ⟨h1, h2⟩ := ih _ _ _ _ h
        exact ⟨h1, by omega⟩

/-- A retryable classification either slept nothing inside the operation or
kept the total elapsed time within the budget (`transport.go` 63–74). -/
theorem classify_retryable_sleep (maxElapsedTime elapsed : Nat) (a : AttemptResult)
    (extra : Nat)
    (h : classifyAttempt maxElapsedTime elapsed a = .retryable extra) :
    elapsed + extra ≤ maxElapsedTime ∨ extra = 0 := by
  cases a with
  | err e =>
    cases e with
    | timeout =>
      right
      have h' : OpOutcome.retryable 0 = OpOutcome.retryable extra := h
      cases h'
      rfl
    | other m => exact absurd h (by simp [classifyAttempt])
  | resp r =>
    simp only [classifyAttempt] at h
    split at h
    · right; cases h; rfl
    · split at h
      · split at h
        · split at h
          · exact absurd h (by simp)
          · cases h
            rename_i hcond
            push_neg at hcond
            left
            omega
        · right; cases h; rfl
      · split at h
        · exact absurd h (by simp)
        · exact absurd h (by simp)

/-- The loop never sleeps past `MaxElapsedTime`: the total time slept by a
finished run is at most the budget. -/
theorem retryLoop_slept (pol : BackoffPolicy) (attempts : Nat → AttemptResult) :
    ∀ fuel n elapsed cur run, elapsed ≤ pol.maxElapsedTime →
      retryLoop pol attempts fuel n elapsed cur = some run →
      run.slept ≤ pol.maxElapsedTime := by
  intro fuel
  induction fuel with
  | zero => intro n elapsed cur run _ h; simp [retryLoop] at h
  | succ f ih =>
    intro n elapsed cur run hel h
    simp only [retryLoop] at h
    split at h
    · cases h; exact hel
    · cases h; exact hel
    · rename_i extra hc
      have hsleep := classify_retryable_sleep pol.maxElapsedTime elapsed (attempts n) extra hc
      split at h
      · cases h
        show elapsed + extra ≤ pol.maxElapsedTime
        omega
      · rename_i hnostop
        push_neg at hnostop
        have hmle : min cur pol.maxInterval ≤ min cur pol.maxInterval := le_refl _
        exact ih _ _ _ _ (by omega) h

/-- With positive intervals the loop always finishes: the fuel
`MaxElapsedTime + 2` used below is always enough once one step is taken. -/
theorem retryLoop_total (pol : BackoffPolicy) (attempts : Nat → AttemptResult) :
    ∀ fuel n elapsed cur, 1 ≤ cur → 1 ≤ pol.maxInterval →
      elapsed ≤ pol.maxElapsedTime → pol.maxElapsedTime + 1 ≤ elapsed + fuel →
      (retryLoop pol attempts fuel n elapsed cur).isSome = true := by
  intro fuel
  induction fuel with
  | zero => intro n elapsed cur h1 h2 h3 h4; omega
  | succ f ih =>
    intro n elapsed cur h1 h2 h3 h4
    simp only [retryLoop]
    split
    · simp
    · simp
    · rename_i extra hc
      have hmin1 : 1 ≤ min cur pol.maxInterval := le_min h1 h2
      split
      · simp
      · rename_i hnostop
        push_neg at hnostop
        refine ih _ _ _ (by omega) h2 (by omega) (by omega)

theorem classify_serverError (maxElapsedTime elapsed : Nat) (a : AttemptResult)
    (h : isServerError a = true) :
    classifyAttempt maxElapsedTime elapsed a = .retryable 0 := by
  cases a with
  | err e => simp [isServerError] at h
  | resp r =>
    simp only [isServerError, decide_eq_true_eq] at h
    simp only [classifyAttempt]
    rw [if_pos h]

/-- When every attempt is a server error, the run with fuel
`MaxElapsedTime + 2` finishes, makes at least two requests (retrying), sleeps
at most `MaxElapsedTime`, and ends holding the last attempt's outcome. -/
theorem retryLoop_all5xx (pol : BackoffPolicy) (attempts : Nat → AttemptResult)
    (h5 : ∀ n, isServerError (attempts n) = true)
    (hII : 1 ≤ pol.initialInterval) (hmaxI : 1 ≤ pol.maxInterval)
    (hMET : pol.initialInterval < pol.maxElapsedTime) :
    ∃ run, retryLoop pol attempts (pol.maxElapsedTime + 2) 0 0 pol.initialInterval = some run ∧
      2 ≤ run.requests ∧ run.slept ≤ pol.maxElapsedTime ∧
      run.lastAttempt = attempts (run.requests - 1) := by
  have hminII : min pol.initialInterval pol.maxInterval ≤ pol.initialInterval :=
    min_le_left _ _
  have hmin1 : 1 ≤ min pol.initialInterval pol.maxInterval := le_min hII hmaxI
  have hstep : retryLoop pol attempts (pol.maxElapsedTime + 2) 0 0 pol.initialInterval =
      retryLoop pol attempts (pol.maxElapsedTime + 1) 1
        (0 + 0 + min pol.initialInterval pol.maxInterval) (pol.initialInterval * 3 / 2) := by
    have hc := classify_serverError pol.maxElapsedTime 0 (attempts 0) (h5 0)
    show retryLoop pol attempts (pol.maxElapsedTime + 1 + 1) 0 0 pol.initialInterval = _
    simp only [retryLoop, hc]
    rw [if_neg (by omega)]
  have htot := retryLoop_total pol attempts (pol.maxElapsedTime + 1) 1
    (0 + 0 + min pol.initialInterval pol.maxInterval) (pol.initialInterval * 3 / 2)
    (by omega) hmaxI (by omega) (by omega)
  obtain ⟨run, hrun⟩ := Option.isSome_iff_exists.mp htot
  obtain ⟨hlast, hreq⟩ := retryLoop_requests pol attempts _ _ _ _ _ hrun
  have hslept := retryLoop_slept pol attempts _ _ _ _ _ (by omega) hrun
  exact ⟨run, hstep ▸ hrun, hreq, hslept, hlast⟩

/-- C5: every 5xx response is classified retryable, so under a policy with
`MaxElapsedTime > InitialInterval` (and positive intervals) `RoundTrip` issues
more than one request; the loop is capped at `MaxElapsedTime` measured from
the first attempt (total sleep never exceeds it), and when it stops it
surfaces the last observed failure — the final attempt's own response, with a
nil error, not a synthetic timeout error. -/
theorem roundTrip_5xx_retries (pol : BackoffPolicy) (attempts : Nat → AttemptResult)
    (h5 : ∀ n, isServerError (attempts n) = true)
    (hII : 1 ≤ pol.initialInterval) (hmaxI : 1 ≤ pol.maxInterval)
    (hMET : pol.initialInterval < pol.maxElapsedTime) :
    ∃ res, roundTrip pol attempts (pol.maxElapsedTime + 2) = some res ∧
      2 ≤ res.requests ∧ res.slept ≤ pol.maxElapsedTime ∧ res.err = none ∧
      ∃ r, attempts (res.requests - 1) = .resp r ∧ 500 ≤ r.statusCode ∧
        res.resp = some { r with bodyClosed := true } := by
  obtain ⟨run, hrun, hreq, hslept, hlast⟩ := retryLoop_all5xx pol attempts h5 hII hmaxI hMET
  have h5' := h5 (run.requests - 1)
  cases hla : attempts (run.requests - 1) with
  | err e => rw [hla] at h5'; simp [isServerError] at h5'
  | resp r =>
    rw [hla] at h5'
    have h500 : 500 ≤ r.statusCode := by simpa [isServerError] using h5'
    have hb : (r.bodyClosed || decide (400 ≤ r.statusCode)) = true := by
      simp only [Bool.or_eq_true, decide_eq_true_eq]
      right
      omega
    have hml : mkRoundTripResult run =
        ⟨some { r with bodyClosed := true }, none, run.requests, run.slept⟩ := by
      simp [mkRoundTripResult, afterOperation, hlast, hla, hb]
    refine ⟨mkRoundTripResult run, by simp [roundTrip, hrun], ?_, ?_, ?_, r, ?_, h500, ?_⟩
    · rw [hml]; exact hreq
    · rw [hml]; exact hslept
    · rw [hml]
    · rw [hml]; exact hla
    · rw [hml]

def attempts5xx : Nat → AttemptResult := fun _ => .resp ⟨500, none, false⟩

theorem roundTrip_5xx_retries_witness :
    ∃ res, roundTrip ⟨50, 100, 200⟩ attempts5xx 202 = some res ∧
      2 ≤ res.requests ∧ res.slept ≤ 200 ∧ res.err = none ∧
      ∃ r, attempts5xx (res.requests - 1) = .resp r ∧ 500 ≤ r.statusCode ∧
        res.resp = some { r with bodyClosed := true } :=
  roundTrip_5xx_retries ⟨50, 100, 200⟩ attempts5xx (fun _ => rfl)
    (by decide) (by decide) (by decide)

/-- C10: when every attempt returns a server error until the retry budget is
exhausted, `RoundTrip` returns the final attempt's response together with a
nil error — the failure is conveyed only through the response's status code —
and that response's body has already been closed by the retry loop. -/
theorem roundTrip_5xx_exhausted (pol : BackoffPolicy) (attempts : Nat → AttemptResult)
    (h5 : ∀ n, isServerError (attempts n) = true)
    (hII : 1 ≤ pol.initialInterval) (hmaxI : 1 ≤ pol.maxInterval)
    (hMET : pol.initialInterval < pol.maxElapsedTime) :
    ∃ res, roundTrip pol attempts (pol.maxElapsedTime + 2) = some res ∧
      res.err = none ∧
      ∃ r0, attempts (res.requests - 1) = .resp r0 ∧
        res.resp = some { r0 with bodyClosed := true } ∧ 500 ≤ r0.statusCode := by
  obtain ⟨run, hrun, hreq, hslept, hlast⟩ := retryLoop_all5xx pol attempts h5 hII hmaxI hMET
  have h5' := h5 (run.requests - 1)
  cases hla : attempts (run.requests - 1) with
  | err e => rw [hla] at h5'; simp [isServerError] at h5'
  | resp r =>
    rw [hla] at h5'
    have h500 : 500 ≤ r.statusCode := by simpa [isServerError] using h5'
    have hb : (r.bodyClosed || decide (400 ≤ r.statusCode)) = true := by
      simp only [Bool.or_eq_true, decide_eq_true_eq]
      right
      omega
    have hml : mkRoundTripResult run =
        ⟨some { r with bodyClosed := true }, none, run.requests, run.slept⟩ := by
      simp [mkRoundTripResult, afterOperation, hlast, hla, hb]
    refine ⟨mkRoundTripResult run, by simp [roundTrip, hrun], ?_, r, ?_, ?_, h500⟩
    · rw [hml]
    · rw [hml]; exact hla
    · rw [hml]

theorem roundTrip_5xx_exhausted_witness :
    ∃ res, roundTrip ⟨50, 100, 200⟩ attempts5xx 202 = some res ∧
      res.err = none ∧
      ∃ r0, attempts5xx (res.requests - 1) = .resp r0 ∧
        res.resp = some { r0 with bodyClosed := true } ∧ 500 ≤ r0.statusCode :=
  roundTrip_5xx_exhausted ⟨50, 100, 200⟩ attempts5xx (fun _ => rfl)
    (by decide) (by decide) (by decide)

/-! ## Shared transport state (`transport.go` 12–16, 27–43, 83)

`NewRetryableTransport` stores one `*backoff.ExponentialBackOff` in the
`RetryableTransport`; every `RoundTrip` call passes this same object to
`backoff.Retry`, which calls `Reset` on it (setting `currentInterval` to
`InitialInterval` and `startTime` to the current time) and `NextBackOff`
(advancing `currentInterval`) — mutations of state shared by all calls. -/

/-- The `backoff.ExponentialBackOff` object (third-party; fields modelled from
the spec's retry-policy description): the immutable configuration plus the
mutable run state `currentInterval` and `startTime` that `Reset`/`NextBackOff`
update in place. -/
structure ExponentialBackOff where
  initialInterval : Nat
  maxInterval : Nat
  maxElapsedTime : Nat
  currentInterval : Nat
  startTime : Nat
deriving DecidableEq

/-- The policy view of a backoff object. -/
def ExponentialBackOff.policy (b : ExponentialBackOff) : BackoffPolicy :=
  ⟨b.initialInterval, b.maxInterval, b.maxElapsedTime⟩

/-- The state of a `RetryableTransport` (`transport.go` 13–16): the underlying
transport is left abstract; the shared `backoffConfig` pointer is the state
visible to all `RoundTrip` calls. -/
structure RetryableTransport where
  backoffConfig : ExponentialBackOff
deriving DecidableEq

/-- `RetryableTransportCfg` (`transport.go` 19–24); a zero duration means
"keep the library default". -/
structure RetryableTransportCfg where
  initialInterval : Nat
  maxInterval : Nat
  maxElapsedTime : Nat
deriving DecidableEq

/-- `transport.go` 28–32. -/
def setIfNotZero (dst src : Nat) : Nat :=
  if src ≠ 0 then src else dst

/-- Modelled from the spec: `backoff.NewExponentialBackOff()` defaults
(third-party library): 500ms initial interval, 60s max interval, 15min max
elapsed time, all in nanoseconds; `currentInterval` starts at the initial
interval and `startTime` at the construction instant. -/
def newExponentialBackOff (now : Nat) : ExponentialBackOff :=
  ⟨500000000, 60000000000, 900000000000, 500000000, now⟩

/-- `NewRetryableTransport` (`transport.go` 27–43): build the one shared
backoff object, overriding each default only when the configured duration is
nonzero. -/
def NewRetryableTransport (cfg : RetryableTransportCfg) (now : Nat) : RetryableTransport :=
  let b := newExponentialBackOff now
  ⟨{ b with
      initialInterval := setIfNotZero b.initialInterval cfg.initialInterval,
      maxInterval := setIfNotZero b.maxInterval cfg.maxInterval,
      maxElapsedTime := setIfNotZero b.maxElapsedTime cfg.maxElapsedTime,
      currentInterval := setIfNotZero b.initialInterval cfg.initialInterval }⟩

/-- One `RoundTrip` call as a transformer of the shared transport state
(`transport.go` 45–86): `backoff.Retry(operation, r.backoffConfig)` first
resets the shared object (`startTime := now`, `currentInterval :=
InitialInterval`) and then advances `currentInterval` on it with every
backoff step; the call returns its result together with the transport state
it leaves behind for subsequent (or concurrent) calls. -/
def roundTripEffect (t : RetryableTransport) (now : Nat)
    (attempts : Nat → AttemptResult) (fuel : Nat) :
    Option (RoundTripResult × RetryableTransport) :=
  (retryLoop t.backoffConfig.policy attempts fuel 0 0 t.backoffConfig.initialInterval).map
    fun run =>
      (mkRoundTripResult run,
       ⟨{ t.backoffConfig with currentInterval := run.finalInterval, startTime := now }⟩)

/-- C9 (code bug): executing `RoundTrip` mutates state of the
`RetryableTransport` that is shared with other calls.  Concretely: a transport
whose shared backoff object holds `currentInterval = 999` and `startTime = 0`
(left by an earlier call), processing one 500 response followed by a success
at instant 50, finishes with the shared object's `currentInterval = 6` and
`startTime = 50` — a different shared state, so concurrent calls race on the
one `ExponentialBackOff` and observe each other's backoff and elapsed-time
clock. -/
theorem roundTrip_mutates_shared_state :
    roundTripEffect ⟨⟨4, 100, 100, 999, 0⟩⟩ 50
        (fun n => if n = 0 then .resp ⟨500, none, false⟩ else .resp ⟨200, none, false⟩) 10 =
      some (⟨some ⟨200, none, false⟩, none, 2, 4⟩, ⟨⟨4, 100, 100, 6, 50⟩⟩) ∧
    (⟨⟨4, 100, 100, 6, 50⟩⟩ : RetryableTransport) ≠ ⟨⟨4, 100, 100, 999, 0⟩⟩ := by
  decide

/-! ## Tenant file reloader (`tenant.go` 23–56) -/

/-- One event observed by the reloader's `select` loop: a tick whose
`readTenants()` call returned either a tenant list or an error, or the
context's cancellation. -/
inductive ReloadEvent where
  | tick (result : Except String (List String))
  | cancel
deriving DecidableEq

/-- How the loop ends (or stands when the given events are exhausted). -/
inductive ReloaderOutcome where
  | failed
  | cancelled
  | running (errorCount : Nat)
deriving DecidableEq

/-- The loop's observable behaviour: its outcome and the sequence of
`SetTenants` installs it performed, in order. -/
structure ReloaderTrace where
  outcome : ReloaderOutcome
  installs : List (List String)
deriving DecidableEq

/-- `newTenantsFileReloader`'s loop (`tenant.go` 33–55), with `errorCount` the
consecutive-failure counter: a failed read logs and increments the counter,
returning an error once it reaches 3; a successful read resets the counter to
zero and installs the result via `SetTenants`; a cancellation returns nil. -/
def reloaderRun (errorCount : Nat) : List ReloadEvent → ReloaderTrace
  | [] => ⟨.running errorCount, []⟩
  | .cancel :: _ => ⟨.cancelled, []⟩
  | .tick (.error _) :: rest =>
    if errorCount + 1 ≥ 3 then ⟨.failed, []⟩
    else reloaderRun (errorCount + 1) rest
  | .tick (.ok ts) :: rest =>
    let t := reloaderRun 0 rest
    ⟨t.outcome, ts :: t.installs⟩

/-- Three consecutive read failures, somewhere in the event sequence, with no
cancellation before them. -/
def threeConsecFailures (es : List ReloadEvent) : Prop :=
  ∃ l1 e1 e2 e3 l2,
    es = l1 ++ .tick (.error e1) :: .tick (.error e2) :: .tick (.error e3) :: l2 ∧
    ∀ ev ∈ l1, ev ≠ ReloadEvent.cancel

/-- Splitting the event sequence: if the first part leaves the loop running,
the run continues into the second part with the carried counter. -/
theorem reloaderRun_append (l1 l2 : List ReloadEvent) :
    ∀ c, reloaderRun c (l1 ++ l2) =
      match reloaderRun c l1 with
      | ⟨.running c', ins⟩ =>
        ⟨(reloaderRun c' l2).outcome, ins ++ (reloaderRun c' l2).installs⟩
      | ⟨o, ins⟩ => ⟨o, ins⟩ := by
  induction l1 with
  | nil => intro c; simp [reloaderRun]
  | cons ev rest ih =>
    intro c
    cases ev with
    | cancel => simp [reloaderRun]
    | tick r =>
      cases r with
      | error e =>
        simp only [List.cons_append, reloaderRun]
        by_cases hc : c + 1 ≥ 3
        · rw [if_pos hc, if_pos hc]
        · rw [if_neg hc, if_neg hc]
          exact ih (c + 1)
      | ok ts =>
        simp only [List.cons_append, reloaderRun, List.append_eq]
        rw [ih 0]
        cases h0 : reloaderRun 0 rest with
        | mk o ins => cases o <;> simp

/-- Soundness: three consecutive failed ticks, with no earlier cancellation,
drive the loop into the failed outcome from any counter value it can hold. -/
theorem reloaderRun_failed_of_threeConsec :
    ∀ (l1 : List ReloadEvent) (c : Nat), c ≤ 2 →
      (∀ ev ∈ l1, ev ≠ ReloadEvent.cancel) →
      ∀ e1 e2 e3 l2,
        (reloaderRun c (l1 ++ .tick (.error e1) :: .tick (.error e2) ::
          .tick (.error e3) :: l2)).outcome = .failed := by
  intro l1
  induction l1 with
  | nil =>
    intro c hc _ e1 e2 e3 l2
    interval_cases c <;> rfl
  | cons ev rest ih =>
    intro c hc hnc e1 e2 e3 l2
    have hnc' : ∀ ev ∈ rest, ev ≠ ReloadEvent.cancel :=
      fun ev h => hnc ev (List.mem_cons_of_mem _ h)
    cases ev with
    | cancel => exact absurd rfl (hnc _ (List.mem_cons_self _ _))
    | tick r =>
      cases r with
      | ok ts =>
        simp only [List.cons_append, reloaderRun]
        exact ih 0 (by omega) hnc' e1 e2 e3 l2
      | error e =>
        simp only [List.cons_append, reloaderRun]
        by_cases h3 : c + 1 ≥ 3
        · rw [if_pos h3]
        · rw [if_neg h3]
          exact ih (c + 1) (by omega) hnc' e1 e2 e3 l2

/-- Completeness: a failed outcome can only come from three consecutive
failed ticks (shortened by whatever consecutive-failure count was carried
in). -/
theorem reloaderRun_threeConsec_of_failed :
    ∀ (es : List ReloadEvent) (c : Nat), c ≤ 2 →
      (reloaderRun c es).outcome = .failed →
      threeConsecFailures es ∨
      (c = 1 ∧ ∃ e1 e2 l2, es = .tick (.error e1) :: .tick (.error e2) :: l2) ∨
      (c = 2 ∧ ∃ e1 l2, es = .tick (.error e1) :: l2) := by
  intro es
  induction es with
  | nil => intro c _ h; simp [reloaderRun] at h
  | cons ev rest ih =>
    intro c hc h
    cases ev with
    | cancel => simp [reloaderRun] at h
    | tick r =>
      cases r with
      | ok ts =>
        simp only [reloaderRun] at h
        rcases ih 0 (by omega) h with h3 | ⟨h10, _⟩ | ⟨h20, _⟩
        · left
          obtain ⟨l1, e1, e2, e3, l2, heq, hnc⟩ := h3
          refine ⟨.tick (.ok ts) :: l1, e1, e2, e3, l2, by rw [heq, List.cons_append], ?_⟩
          intro ev hev
          rcases List.mem_cons.mp hev with hh | hh
          · subst hh; simp
          · exact hnc ev hh
        · exact absurd h10 (by omega)
        · exact absurd h20 (by omega)
      | error e =>
        simp only [reloaderRun] at h
        by_cases h3 : c + 1 ≥ 3
        · right; right
          exact ⟨by omega, e, rest, rfl⟩
        · rw [if_neg h3] at h
          rcases ih (c + 1) (by omega) h with h3' | ⟨h11, e1, e2, l2, heq⟩ |
            ⟨h21, e1, l2, heq⟩
          · left
            obtain ⟨l1, e1, e2, e3, l2, heq, hnc⟩ := h3'
            refine ⟨.tick (.error e) :: l1, e1, e2, e3, l2,
              by rw [heq, List.cons_append], ?_⟩
            intro ev hev
            rcases List.mem_cons.mp hev with hh | hh
            · subst hh; simp
            · exact hnc ev hh
          · left
            exact ⟨[], e, e1, e2, l2, by simp [heq], by intro ev hev; simp at hev⟩
          · right; left
            exact ⟨by omega, e, e1, l2, by rw [heq]⟩

/-- Started from a zero counter, the loop fails exactly on three consecutive
failed ticks not preceded by a cancellation. -/
theorem reloaderRun_failed_iff (es : List ReloadEvent) :
    (reloaderRun 0 es).outcome = .failed ↔ threeConsecFailures es := by
  constructor
  · intro h
    rcases reloaderRun_threeConsec_of_failed es 0 (by omega) h with h3 | ⟨h0, _⟩ | ⟨h0, _⟩
    · exact h3
    · exact absurd h0 (by omega)
    · exact absurd h0 (by omega)
  · rintro ⟨l1, e1, e2, e3, l2, heq, hnc⟩
    rw [heq]
    exact reloaderRun_failed_of_threeConsec l1 0 (by omega) hnc e1 e2 e3 l2

/-- C7: `newTenantsFileReloader` returns an error exactly when the tenant
reader fails on 3 consecutive ticks (never after a cancellation); a
successful read resets the consecutive-failure counter to zero and installs
the result via `SetTenants`, so the loop continues past later ticks without
error until 3 new consecutive failures; and as long as the loop is still
running, a cancellation terminates it with no error. -/
theorem tenantsFileReloader_spec :
    (∀ es, (reloaderRun 0 es).outcome = .failed ↔ threeConsecFailures es) ∧
    (∀ l1 l2 c, (reloaderRun 0 l1).outcome = .running c →
       (reloaderRun 0 (l1 ++ .cancel :: l2)).outcome = .cancelled) ∧
    (∀ c ts rest, reloaderRun c (.tick (.ok ts) :: rest) =
       ⟨(reloaderRun 0 rest).outcome, ts :: (reloaderRun 0 rest).installs⟩) := by
  refine ⟨reloaderRun_failed_iff, ?_, fun c ts rest => rfl⟩
  intro l1 l2 c hrun
  rw [reloaderRun_append]
  cases h1 : reloaderRun 0 l1 with
  | mk o ins =>
    rw [h1] at hrun
    cases o with
    | failed => exact absurd hrun (by simp)
    | cancelled => exact absurd hrun (by simp)
    | running c' => rfl

theorem tenantsFileReloader_spec_witness :
    ((reloaderRun 0 [ReloadEvent.tick (.error "e"), .tick (.error "e"),
        .tick (.error "e")]).outcome = .failed ↔
      threeConsecFailures [ReloadEvent.tick (.error "e"), .tick (.error "e"),
        .tick (.error "e")]) ∧
    (reloaderRun 0 ([ReloadEvent.tick (.ok ["tenant1"]), .tick (.error "e"),
        .tick (.ok ["tenant2"])] ++ ReloadEvent.cancel :: [])).outcome = .cancelled ∧
    reloaderRun 1 (.tick (.ok ["tenant1"]) :: [.tick (.error "e")]) =
      ⟨(reloaderRun 0 [.tick (.error "e")]).outcome,
       ["tenant1"] :: (reloaderRun 0 [.tick (.error "e")]).installs⟩ :=
  ⟨tenantsFileReloader_spec.1 _,
   tenantsFileReloader_spec.2.1
     [.tick (.ok ["tenant1"]), .tick (.error "e"), .tick (.ok ["tenant2"])] [] 0 (by decide),
   tenantsFileReloader_spec.2.2 1 ["tenant1"] [.tick (.error "e")]⟩

/-! ## `fetchAll` under an already-cancelled context (`fetcher.go` 76–93) -/

/-- The result a fetch reports when its context is already cancelled: the
`select`'s `ctx.Done()` branch pushes `ctx.Err()`, and a dispatched task's
`f.client.ListRules(ctx, tenantID)` fails with the context's error before any
network request is sent (behaviour of the external HTTP client under a
cancelled context). -/
def cancelledOutcome : FetchOutcome :=
  ⟨some "context canceled", 0, .error "context canceled"⟩

/-- What the producer goroutine did in one run: the tenants whose fetch
goroutines were started, and the results pushed to the collector. -/
structure ProducerRun where
  dispatched : List String
  results : List (String × FetchOutcome)
deriving DecidableEq

/-- The producer loop of `GetTenantsRules` (`fetcher.go` 76–93) specialised to
an already-cancelled context.  For each tenant the loop runs
`select` over `<-ctx.Done()` (push `ctx.Err()` and return) and
`sem <- struct... ` (start the fetch goroutine).  With a cancelled context
**both** cases are ready (the semaphore of capacity 10 frees as the cancelled
tasks return promptly), and Go's `select` picks among ready cases by uniform
pseudo-random choice, so the branch taken is an input of the model:
`choice n = true` means the select of iteration `n` takes the `ctx.Done()`
branch; `false` means it takes the semaphore branch and dispatches the task. -/
def producerCancelled (choice : Nat → Bool) : Nat → List String → ProducerRun
  | _, [] => ⟨[], []⟩
  | n, t :: ts =>
    if choice n then ⟨[], [(t, cancelledOutcome)]⟩
    else
      let rest := producerCancelled choice (n + 1) ts
      ⟨t :: rest.dispatched, (t, cancelledOutcome) :: rest.results⟩

/-- `GetTenantsRules` under an already-cancelled context: the collector
consumes whatever results the producer pushed. -/
def fetchAllCancelled (choice : Nat → Bool) (tenants : List String) :
    Except String (List RuleGroup) :=
  processResults (producerCancelled choice 0 tenants).results

/-- C8 counterexample: invoking `fetchAll` on tenants `["tenant1"]` with an
already-cancelled context, in the execution whose select takes the semaphore
branch, **does** start a fetch task: the dispatched list is `["tenant1"]`,
not empty — refuting "zero per-tenant requests are dispatched (no fetch task
is ever started)". -/
theorem fetchAllCancelled_dispatches :
    (producerCancelled (fun _ => false) 0 ["tenant1"]).dispatched = ["tenant1"] ∧
    (producerCancelled (fun _ => false) 0 ["tenant1"]).dispatched ≠ [] := by
  decide

/-- Under a cancelled context every pushed result carries the context's
error, and at least one result is pushed when the tenant list is nonempty. -/
theorem producerCancelled_results_err (choice : Nat → Bool) :
    ∀ (tenants : List String) (n : Nat), tenants ≠ [] →
      ∃ t rest,
        (producerCancelled choice n tenants).results = (t, cancelledOutcome) :: rest := by
  intro tenants
  cases tenants with
  | nil => intro n h; exact absurd rfl h
  | cons t ts =>
    intro n _
    by_cases hch : choice n
    · exact ⟨t, [], by simp [producerCancelled, hch]⟩
    · exact ⟨t, (producerCancelled choice (n + 1) ts).results,
        by simp [producerCancelled, hch]⟩

/-- C8 (amended): `fetchAll` invoked with an already-cancelled context and a
nonempty tenant list returns an error in every execution; once the select
takes the cancellation branch no further task starts, so in executions where
the cancellation branch is chosen at the first iteration zero fetch tasks are
dispatched — but when the semaphore branch wins the pseudo-random select a
task is dispatched (with the cancelled context), and with an empty tenant
list the call returns no error at all. -/
theorem fetchAllCancelled_errors (choice : Nat → Bool) (tenants : List String) :
    (tenants ≠ [] → ∃ e, fetchAllCancelled choice tenants = .error e) ∧
    (choice 0 = true → (producerCancelled choice 0 tenants).dispatched = []) ∧
    fetchAllCancelled choice [] = .ok [] := by
  refine ⟨?_, ?_, rfl⟩
  · intro hne
    obtain ⟨t, rest, hres⟩ := producerCancelled_results_err choice tenants 0 hne
    refine ⟨"failed to do http request: " ++ "context canceled", ?_⟩
    rw [fetchAllCancelled, hres]
    rfl
  · intro hch
    cases tenants with
    | nil => rfl
    | cons t ts => simp [producerCancelled, hch]

theorem fetchAllCancelled_errors_witness :
    (∃ e, fetchAllCancelled (fun _ => true) ["tenant1"] = .error e) ∧
    (producerCancelled (fun _ => true) 0 ["tenant1"]).dispatched = [] :=
  ⟨(fetchAllCancelled_errors (fun _ => true) ["tenant1"]).1 (by decide),
   (fetchAllCancelled_errors (fun _ => true) ["tenant1"]).2.1 rfl⟩
